import Mathlib

/-
Verification of the parallel experiment runner / result aggregator in
`hoku/perform-e.py` against its natural-language specification.

The script is embedded shallowly:

* `SCHEMAS` / `PREPARED` embed the two string-keyed lookup tables at the top
  of the file, keyed here by the closed experiment-kind type `Exper`
  (the script's keys are the strings "QUERY" / "REDUCTION" / "MAP").
  The multi-line SQL column lists are reproduced with their whitespace
  normalized to single spaces; the script only ever forwards these strings
  opaquely.
* `pyRound` embeds Python's built-in `round` applied to `samples / pnum`:
  the nearest integer to the exact rational `num / den`, ties going to the
  even neighbour.  (Python computes the quotient in floating point; the
  embedding uses the exact rational value, which agrees on every input
  considered here.)
* `partition` embeds lines 139 and 142-143: per-partition result-store
  paths `recdb + "-" + str(i)` for `i in range(pnum)`, each partition
  receiving `simulations = round(samples / pnum)` samples.
* `execute_chunk_argv` embeds the argument vector built by
  `execute_chunk` (lines 90-122).  Command-line values of Python type
  `float` (`ep1..ep4`, `mlimit`, `imfov`, `ssstep`, `rmsigma`) are
  modelled by the strings `str()` renders them to, which is all the script
  ever observes of them; `int`-typed values are modelled as `Int` and
  rendered with `toString`.
* `aggregateLoop` embeds the resource-collection loop (lines 155-167):
  each per-partition store is either readable (`some rows`) or not
  (`none`, e.g. the file was absent so `sqlite3.connect` created an empty
  database without the experiment table and `SELECT` raises
  `OperationalError`); the loop has no exception handler, so an unreadable
  store aborts the whole run.
* `mainTrace` embeds the tail of `__main__` (lines 142-170) as the ordered
  list of observable events: row insertion per partition, the single
  `commit`, and the `os.remove` calls of line 170 (which raise
  `FileNotFoundError` on a missing file).  The exit statuses returned by
  `subprocess.call` are discarded by `execute_chunk`, so the child exit
  codes are an unused parameter, and the interpreter's exit code is 0
  exactly when no exception was raised.
-/

namespace PerformE

/-- Experiment kinds: the closed key set of `SCHEMAS` and `PREPARED`. -/
inductive Exper where
  | QUERY
  | REDUCTION
  | MAP
deriving DecidableEq

/-- Embedding of the `SCHEMAS` table (lines 4-43), whitespace normalized. -/
def SCHEMAS : Exper → String
  | .QUERY =>
      "IdentificationMethod TEXT, Timestamp TEXT, Epsilon1 FLOAT, Epsilon2 FLOAT, Epsilon3 FLOAT, CandidateSetSize FLOAT, RunningTime FLOAT, SExistence INT"
  | .REDUCTION =>
      "IdentificationMethod TEXT, Timestamp TEXT, Epsilon1 FLOAT, Epsilon2 FLOAT, Epsilon3 FLOAT, ShiftDeviation FLOAT, FalseStars INT, RemovedBlobs INT, QueryCount INT, TimeToResult FLOAT, PercentageCorrect FLOAT"
  | .MAP =>
      "IdentificationMethod TEXT, Timestamp TEXT, Epsilon1 FLOAT, Epsilon2 FLOAT, Epsilon3 FLOAT, Epsilon4 FLOAT, ShiftDeviation FLOAT, FalseStars INT, RemovedBlobs INT, QueryCount INT, TimeToResult FLOAT, PercentageCorrect FLOAT, IsErrorOut INT"

/-- Number of `'?, '` repetitions in the `PREPARED` table (lines 44-48). -/
def prepCount : Exper → Nat
  | .QUERY => 7
  | .REDUCTION => 10
  | .MAP => 12

/-- Embedding of the `PREPARED` table: `''.join(['?, ' for _ in range(n)]) + '?'`. -/
def PREPARED (e : Exper) : String :=
  String.join (List.replicate (prepCount e) "?, ") ++ "?"

/-- String the `-exper` argument holds for each experiment kind. -/
def experName : Exper → String
  | .QUERY => "QUERY"
  | .REDUCTION => "REDUCTION"
  | .MAP => "MAP"

/-- Python `round (a / b)` for `b > 0`: nearest integer to the exact rational
`a / b`, ties to the even neighbour.  `q` is the floor quotient and `r` the
remainder, so `a / b = q + r / b` with `0 ≤ r < b`; comparing `2 * r` with `b`
compares the fractional part with one half. -/
def pyRoundPos (a b : Int) : Int :=
  let q := Int.fdiv a b
  let r := a - b * q
  if 2 * r < b then q
  else if b < 2 * r then q + 1
  else if q % 2 = 0 then q else q + 1

/-- Python `round (num / den)` for `den ≠ 0` (half-to-even on the exact
rational quotient). -/
def pyRound (num den : Int) : Int :=
  if den < 0 then pyRoundPos (-num) (-den) else pyRoundPos num den

/-- Embedding of line 139: `simulations = round(arguments.samples / arguments.pnum)`. -/
def simulations (samples pnum : Int) : Int :=
  pyRound samples pnum

/-- Decimal digit characters, as Python renders them. -/
def digitChar : Nat → Char
  | 0 => '0'
  | 1 => '1'
  | 2 => '2'
  | 3 => '3'
  | 4 => '4'
  | 5 => '5'
  | 6 => '6'
  | 7 => '7'
  | 8 => '8'
  | _ => '9'

/-- Fuel-driven decimal rendering of a natural number (most significant digit
first); `fuel` bounds the number of digits and always suffices when
`n ≤ fuel`. -/
def natStrAux : Nat → Nat → List Char
  | 0, _ => []
  | _ + 1, 0 => []
  | fuel + 1, n + 1 => natStrAux fuel ((n + 1) / 10) ++ [digitChar ((n + 1) % 10)]

/-- Embedding of Python's `str(i)` / `f-string` rendering of a nonnegative
integer in decimal. -/
def natStr (n : Nat) : String :=
  if n = 0 then "0" else String.mk (natStrAux n n)

/-- Embedding of lines 139 and 142-143: the per-partition plan.  Partition
`i` (for `i in range(pnum)`) is assigned the result-store path
`recdb + "-" + str(i)` and the sample count `simulations`. -/
def partition (recdb : String) (samples pnum : Int) : List (String × Int) :=
  (List.range pnum.toNat).map (fun i => (recdb ++ "-" ++ natStr i, simulations samples pnum))

/-- Embedding of the run up to (but excluding) the launch of the first child
process: line 139 raises `ZeroDivisionError` when `pnum = 0`, and the
`Pool(arguments.pnum)` constructor on line 142 raises `ValueError` when
`pnum < 1`.  Children are spawned by `starmap` only in the `ok` case. -/
def spawnPhase (recdb : String) (samples pnum : Int) : Except String (List (String × Int)) :=
  if pnum = 0 then .error "ZeroDivisionError: division by zero"
  else if pnum < 1 then .error "ValueError: Number of processes must be at least 1"
  else .ok (partition recdb samples pnum)

/-- Whether an `Except` computation raised. -/
def isErr {ε α : Type} : Except ε α → Bool
  | .error _ => true
  | .ok _ => false

/-- The parsed command-line arguments (lines 51-87).  Fields of Python type
`float` are modelled by their `str()` rendering. -/
structure Arguments where
  pnum : Int
  refdb : String
  recdb : String
  hip : String
  bright : String
  rtable : String
  etable : String
  strategy : String
  prefixArg : String
  ep1 : String
  ep2 : String
  ep3 : String
  ep4 : String
  nlimit : Int
  mlimit : String
  nulimit : Int
  exper : Exper
  samples : Int
  imfov : String
  ssiter : Int
  ssstep : String
  esmin : Int
  esiter : Int
  esstep : Int
  rmiter : Int
  rmstep : Int
  rmsigma : String
deriving DecidableEq

/-- Embedding of the argument vector `execute_chunk` passes to
`subprocess.call` (lines 93-122).  `script_dir` is
`abspath(__file__).replace('/perform-e.py', '')`; `recdb` and `samples` are
the two per-partition values from `starmap`. -/
def execute_chunk_argv (script_dir : String) (a : Arguments) (recdb : String)
    (samples : Int) : List String :=
  [script_dir ++ "/../bin/PerformE",
   a.refdb,
   recdb,
   a.hip,
   a.bright,
   a.rtable,
   a.etable,
   SCHEMAS a.exper,
   a.strategy,
   a.prefixArg,
   a.ep1,
   a.ep2,
   a.ep3,
   a.ep4,
   toString a.nlimit,
   a.mlimit,
   toString a.nulimit,
   experName a.exper,
   toString samples,
   a.imfov,
   toString a.ssiter,
   a.ssstep,
   toString a.esmin,
   toString a.esiter,
   toString a.esstep,
   toString a.rmiter,
   toString a.rmstep,
   a.rmsigma]

/-- A row fetched from / inserted into an experiment table: an opaque tuple
of column values. -/
abbrev Row := List String

/-- Embedding of the resource-collection loop (lines 155-167) at the level of
the destination table's rows.  Each element of the list is one partition's
result store: `some recs` when `SELECT * FROM etable` succeeds and fetches
`recs`, `none` when it raises (absent or corrupt store / missing table).
The loop body has no exception handler, so a `none` store aborts the run
with the uncaught `sqlite3.OperationalError`; otherwise every fetched row is
inserted into the destination table in order. -/
def aggregateLoop : List (Option (List Row)) → List Row → Except String (List Row)
  | [], dest => .ok dest
  | none :: _, _ => .error "OperationalError: no such table"
  | some recs :: rest, dest => aggregateLoop rest (dest ++ recs)

/-- Embedding of `CREATE TABLE IF NOT EXISTS` (lines 149-153) on the
destination store: the destination table is either absent (`none`) or present
with its schema string and current rows.  When present, the statement is a
no-op: both the existing schema and the existing rows are kept. -/
def createTableIfNotExists (schema : String) (tbl : Option (String × List Row)) :
    String × List Row :=
  match tbl with
  | none => (schema, [])
  | some t => t

/-- Observable events of the tail of `__main__`. -/
inductive Ev where
  | insertedFrom (i : Nat) (recs : List Row)
  | commit
  | removed (i : Nat)
  | raised (msg : String)
deriving DecidableEq

/-- Event trace of the resource-collection loop over the partition stores,
starting at partition index `i`; the boolean records whether the loop ran to
completion (`false` = it raised). -/
def aggTrace : Nat → List (Option (List Row)) → List Ev × Bool
  | _, [] => ([], true)
  | _, none :: _ => ([.raised "OperationalError: no such table"], false)
  | i, some recs :: rest =>
      let t := aggTrace (i + 1) rest
      (.insertedFrom i recs :: t.1, t.2)

/-- Event trace of line 170, `remove(recdb + '-' + str(i))` for each
partition index: `os.remove` deletes a present file and raises
`FileNotFoundError` at the first missing one, ending the run. -/
def cleanTrace : Nat → List Bool → List Ev
  | _, [] => []
  | i, true :: rest => .removed i :: cleanTrace (i + 1) rest
  | _, false :: _ => [.raised "FileNotFoundError"]

/-- Event trace of lines 142-170 after the children have been waited for:
the values returned by `subprocess.call` are discarded by `execute_chunk`
(line 93 ignores `call`'s result), so `childCodes` — the exit statuses of
the child simulation processes — influence nothing.  Aggregation runs first;
only if it completes does the script commit and then remove the partition
stores. -/
def mainTrace (childCodes : List Int) (stores : List (Option (List Row)))
    (present : List Bool) : List Ev :=
  match aggTrace 0 stores with
  | (t, false) => t
  | (t, true) => t ++ [Ev.commit] ++ cleanTrace 0 present

/-- Whether an event is a raised exception. -/
def isRaisedEv : Ev → Bool
  | .raised _ => true
  | _ => false

/-- Exit code of the interpreter for the whole run: 0 when the script falls
off the end, 1 when an exception escapes `__main__`. -/
def runExitCode (childCodes : List Int) (stores : List (Option (List Row)))
    (present : List Bool) : Int :=
  if (mainTrace childCodes stores present).any isRaisedEv then 1 else 0

/-- Concrete parsed arguments used by counterexamples: fields in declaration
order (`pnum`, `refdb`, `recdb`, `hip`, `bright`, `rtable`, `etable`,
`strategy`, `prefixArg`, `ep1`-`ep4`, `nlimit`, `mlimit`, `nulimit`, `exper`,
`samples`, `imfov`, `ssiter`, `ssstep`, `esmin`, `esiter`, `esstep`,
`rmiter`, `rmstep`, `rmsigma`). -/
def cArgs : Arguments :=
  ⟨2, "nibble.db", "lumberjack.db", "HIP", "BRIGHT", "ANGLE_20", "QUERY_T",
   "ANGLE", "m", "0.001", "0.001", "0.001", "0.001", -1, "6.0", 1, .QUERY,
   100, "20.0", 5, "0.1", 0, 5, 1, 5, 1, "3.0"⟩

/-! Helper lemmas about the decimal rendering `natStr`. -/

/-- Value a digit character parses back to. -/
def parseNat (cs : List Char) : Nat :=
  cs.foldl (fun a c => 10 * a + (c.toNat - 48)) 0

theorem parseNat_concat (cs : List Char) (c : Char) :
    parseNat (cs ++ [c]) = 10 * parseNat cs + (c.toNat - 48) := by
  simp [parseNat, List.foldl_append]

theorem toNat_digitChar {d : Nat} (hd : d < 10) : (digitChar d).toNat - 48 = d := by
  interval_cases d <;> rfl

theorem parseNat_natStrAux : ∀ fuel n, n ≤ fuel → parseNat (natStrAux fuel n) = n := by
  intro fuel
  induction fuel with
  | zero =>
      intro n hn
      have h0 : n = 0 := Nat.le_zero.mp hn
      subst h0
      rfl
  | succ fuel ih =>
      intro n hn
      match n with
      | 0 => rfl
      | m + 1 =>
          have hlt : (m + 1) / 10 < m + 1 := Nat.div_lt_self (Nat.succ_pos m) (by norm_num)
          have hdiv : (m + 1) / 10 ≤ fuel := by omega
          have hmod : (m + 1) % 10 < 10 := Nat.mod_lt _ (by norm_num)
          show parseNat (natStrAux fuel ((m + 1) / 10) ++ [digitChar ((m + 1) % 10)]) = m + 1
          rw [parseNat_concat, ih _ hdiv, toNat_digitChar hmod]
          exact Nat.div_add_mod (m + 1) 10

theorem parseNat_natStr (n : Nat) : parseNat (natStr n).data = n := by
  match n with
  | 0 => rfl
  | m + 1 =>
      show parseNat (natStr (m + 1)).data = m + 1
      have h : natStr (m + 1) = String.mk (natStrAux (m + 1) (m + 1)) := by
        simp [natStr]
      rw [h]
      exact parseNat_natStrAux (m + 1) (m + 1) (le_refl _)

theorem natStr_injective : Function.Injective natStr := by
  intro a b h
  have h2 := congrArg (fun s => parseNat s.data) h
  simpa [parseNat_natStr] using h2

theorem path_injective (recdb : String) :
    Function.Injective fun i => recdb ++ "-" ++ natStr i := by
  intro a b h
  apply natStr_injective
  apply String.ext
  have hd := congrArg String.data h
  simp only [String.data_append, List.append_assoc] at hd
  exact List.append_cancel_left (List.append_cancel_left hd)

/-! Helper lemmas about the aggregation loop and the event traces. -/

theorem aggregateLoop_map_some :
    ∀ (stores : List (List Row)) (dest : List Row),
      aggregateLoop (stores.map some) dest = .ok (dest ++ stores.flatten) := by
  intro stores
  induction stores with
  | nil => intro dest; simp [aggregateLoop]
  | cons s rest ih => intro dest; simp [aggregateLoop, ih, List.append_assoc]

theorem aggregateLoop_ok_take :
    ∀ (stores : List (Option (List Row))) (dest r : List Row),
      aggregateLoop stores dest = .ok r → r.take dest.length = dest := by
  intro stores
  induction stores with
  | nil =>
      intro dest r h
      have h2 : dest = r := by simpa [aggregateLoop] using h
      subst h2
      simp
  | cons s rest ih =>
      intro dest r h
      match s with
      | none => simp [aggregateLoop] at h
      | some recs =>
          have h2 := ih (dest ++ recs) r (by simpa [aggregateLoop] using h)
          have hlen : dest.length ≤ (dest ++ recs).length := by simp
          calc r.take dest.length
              = r.take (min dest.length (dest ++ recs).length) := by
                rw [Nat.min_eq_left hlen]
            _ = (r.take (dest ++ recs).length).take dest.length :=
                (List.take_take ..).symm
            _ = (dest ++ recs).take dest.length := by rw [h2]
            _ = dest := List.take_left ..

theorem removed_not_mem_aggTrace :
    ∀ (stores : List (Option (List Row))) (i j : Nat),
      Ev.removed j ∉ (aggTrace i stores).1 := by
  intro stores
  induction stores with
  | nil => intro i j; simp [aggTrace]
  | cons s rest ih =>
      intro i j
      match s with
      | none => simp [aggTrace]
      | some recs => simp [aggTrace, ih (i + 1) j]

theorem aggTrace_snd_true :
    ∀ (stores : List (Option (List Row))) (i : Nat), none ∉ stores →
      (aggTrace i stores).2 = true := by
  intro stores
  induction stores with
  | nil => intro i _; rfl
  | cons s rest ih =>
      intro i hs
      match s with
      | none => exact absurd (List.mem_cons_self ..) hs
      | some recs =>
          have hrest : none ∉ rest := fun hr => hs (List.mem_cons_of_mem _ hr)
          simpa [aggTrace] using ih (i + 1) hrest

theorem aggTrace_no_raised :
    ∀ (stores : List (Option (List Row))) (i : Nat), none ∉ stores →
      ∀ e ∈ (aggTrace i stores).1, isRaisedEv e = false := by
  intro stores
  induction stores with
  | nil => intro i _ e he; simp [aggTrace] at he
  | cons s rest ih =>
      intro i hs e he
      match s with
      | none => exact absurd (List.mem_cons_self ..) hs
      | some recs =>
          have hrest : none ∉ rest := fun hr => hs (List.mem_cons_of_mem _ hr)
          simp only [aggTrace, List.mem_cons] at he
          rcases he with he | he
          · subst he; rfl
          · exact ih (i + 1) hrest e he

theorem cleanTrace_no_raised :
    ∀ (present : List Bool) (i : Nat), false ∉ present →
      ∀ e ∈ cleanTrace i present, isRaisedEv e = false := by
  intro present
  induction present with
  | nil => intro i _ e he; simp [cleanTrace] at he
  | cons b rest ih =>
      intro i hp e he
      match b with
      | false => exact absurd (List.mem_cons_self ..) hp
      | true =>
          have hrest : false ∉ rest := fun hr => hp (List.mem_cons_of_mem _ hr)
          simp only [cleanTrace, List.mem_cons] at he
          rcases he with he | he
          · subst he; rfl
          · exact ih (i + 1) hrest e he

theorem raised_mem_cleanTrace :
    ∀ (present : List Bool) (i : Nat),
      Ev.raised "FileNotFoundError" ∈ cleanTrace i present ↔ false ∈ present := by
  intro present
  induction present with
  | nil => intro i; simp [cleanTrace]
  | cons b rest ih =>
      intro i
      match b with
      | false => simp [cleanTrace]
      | true => simp [cleanTrace, ih (i + 1)]

theorem mainTrace_eq_of_ok (codes : List Int) (stores : List (Option (List Row)))
    (present : List Bool) (h : (aggTrace 0 stores).2 = true) :
    mainTrace codes stores present =
      (aggTrace 0 stores).1 ++ [Ev.commit] ++ cleanTrace 0 present := by
  unfold mainTrace
  rcases htr : aggTrace 0 stores with ⟨t, b⟩
  rw [htr] at h
  cases b with
  | false => exact absurd h (by simp)
  | true => simp [htr]

theorem mainTrace_eq_of_err (codes : List Int) (stores : List (Option (List Row)))
    (present : List Bool) (h : (aggTrace 0 stores).2 = false) :
    mainTrace codes stores present = (aggTrace 0 stores).1 := by
  unfold mainTrace
  rcases htr : aggTrace 0 stores with ⟨t, b⟩
  rw [htr] at h
  cases b with
  | false => simp [htr]
  | true => exact absurd h (by simp)

/-- Sample-count list of a partition plan: all entries identical. -/
theorem partition_map_snd (recdb : String) (samples pnum : Int) :
    (partition recdb samples pnum).map Prod.snd =
      List.replicate pnum.toNat (simulations samples pnum) := by
  unfold partition
  rw [List.map_map]
  have hc : (Prod.snd ∘ fun i : Nat => (recdb ++ "-" ++ natStr i, simulations samples pnum)) =
      fun _ => simulations samples pnum := rfl
  rw [hc, List.map_const', List.length_range]

/-! Claim theorems. -/

/-- C1 counterexample: at `totalSamples = 11`, `workerCount = 2` the
partition sample counts sum to 12, while the claimed value
`(totalSamples // workerCount) * workerCount` (Python floor division) is 10:
the remainder is not dropped, the total is rounded up. -/
theorem C1_counterexample :
    ((partition "lumberjack.db" 11 2).map Prod.snd).sum ≠ Int.fdiv 11 2 * 2 ∧
    ((partition "lumberjack.db" 11 2).map Prod.snd).sum = 12 ∧
    Int.fdiv 11 2 * 2 = 10 := by
  refine ⟨by decide, by decide, by decide⟩

/-- C1 (amended): for every `totalSamples` and `workerCount ≥ 1`, the plan
has exactly `workerCount` partitions and the sample counts sum to
`workerCount * round(totalSamples / workerCount)` — Python `round`
(half-to-even), not floor division, so the total can exceed
`totalSamples`. -/
theorem C1_partition_sum (recdb : String) (samples pnum : Int) (h : 1 ≤ pnum) :
    (partition recdb samples pnum).length = pnum.toNat ∧
    ((partition recdb samples pnum).map Prod.snd).sum =
      pnum * simulations samples pnum := by
  constructor
  · simp [partition]
  · rw [partition_map_snd, List.sum_replicate, nsmul_eq_mul,
        Int.toNat_of_nonneg (by omega)]

/-- C1 witness: instance of `C1_partition_sum` at `totalSamples = 10`,
`workerCount = 3`. -/
theorem C1_partition_sum_witness :
    (1 : Int) ≤ 3 ∧
    ((partition "db" 10 3).length = (3 : Int).toNat ∧
      ((partition "db" 10 3).map Prod.snd).sum = 3 * simulations 10 3) :=
  ⟨by decide, C1_partition_sum "db" 10 3 (by decide)⟩

/-- C10: every partition is assigned the identical count
`round(totalSamples / workerCount)` with Python's half-to-even rounding
(`round(5.5) = 6`, `round(2.5) = 2`, unlike floor division `11 // 2 = 5`),
and at `totalSamples = 11`, `workerCount = 2` the assigned total 12 strictly
exceeds 11. -/
theorem C10_round_half_even :
    (∀ (recdb : String) (samples pnum : Int), 1 ≤ pnum →
        (partition recdb samples pnum).map Prod.snd =
          List.replicate pnum.toNat (pyRound samples pnum)) ∧
    pyRound 11 2 = 6 ∧ pyRound 5 2 = 2 ∧ Int.fdiv 11 2 = 5 ∧
    ((partition "db" 11 2).map Prod.snd).sum = 12 ∧ (11 : Int) < 12 := by
  refine ⟨fun recdb samples pnum _ => partition_map_snd recdb samples pnum,
    by decide, by decide, by decide, by decide, by decide⟩

/-- C10 witness: instance of `C10_round_half_even`'s universal part at
`totalSamples = 11`, `workerCount = 2`. -/
theorem C10_round_half_even_witness :
    (1 : Int) ≤ 2 ∧
    (partition "db" 11 2).map Prod.snd =
      List.replicate (2 : Int).toNat (pyRound 11 2) :=
  ⟨by decide, C10_round_half_even.1 "db" 11 2 (by decide)⟩

/-- C2: if every partition's result store is readable and holds exactly that
partition's sample count of rows, aggregating into an empty destination
inserts precisely the concatenation of the stores — the master row count is
the sum of the partitions' sample counts, with no loss and no
duplication. -/
theorem C2_aggregate_exact (recdb : String) (samples pnum : Int)
    (stores : List (List Row))
    (h : stores.map (fun s => (s.length : Int)) =
      (partition recdb samples pnum).map Prod.snd) :
    aggregateLoop (stores.map some) [] = .ok stores.flatten ∧
    (stores.flatten.length : Int) =
      ((partition recdb samples pnum).map Prod.snd).sum := by
  constructor
  · simpa using aggregateLoop_map_some stores []
  · rw [← h, List.length_flatten, Nat.cast_list_sum, List.map_map]
    rfl

/-- C2 witness: two partitions of two rows each merge to four rows. -/
theorem C2_aggregate_exact_witness :
    ([[["a"], ["b"]], [["c"], ["d"]]] : List (List Row)).map
        (fun s => (s.length : Int)) = (partition "db" 4 2).map Prod.snd ∧
    (aggregateLoop (([[["a"], ["b"]], [["c"], ["d"]]] : List (List Row)).map some) [] =
        .ok ([[["a"], ["b"]], [["c"], ["d"]]] : List (List Row)).flatten ∧
      ((([[["a"], ["b"]], [["c"], ["d"]]] : List (List Row)).flatten.length : Int) =
        ((partition "db" 4 2).map Prod.snd).sum)) :=
  ⟨by decide, C2_aggregate_exact "db" 4 2 [[["a"], ["b"]], [["c"], ["d"]]] (by decide)⟩

/-- C3 counterexample: the argument vector is not of the claimed shape
`fixed arguments ++ [result-store path, sample count]` — its last element is
the `rmsigma` value `"3.0"`, not the sample count. -/
theorem C3_counterexample :
    ¬ ∃ fixed : List String,
        execute_chunk_argv "/h/hoku" cArgs "lumberjack.db-0" 100 =
          fixed ++ ["lumberjack.db-0", toString (100 : Int)] := by
  rintro ⟨fixed, h⟩
  have h1 : (execute_chunk_argv "/h/hoku" cArgs "lumberjack.db-0" 100).getLast? =
      some "3.0" := rfl
  have h2 : (fixed ++ ["lumberjack.db-0", toString (100 : Int)]).getLast? =
      some (toString (100 : Int)) := by
    rw [show (["lumberjack.db-0", toString (100 : Int)] : List String) =
        ["lumberjack.db-0"] ++ [toString (100 : Int)] from rfl,
      ← List.append_assoc]
    exact List.getLast?_concat ..
  rw [h] at h1
  exact absurd (Option.some.inj (h2.symm.trans h1)) (by decide)

/-- C3 (amended): the child argument vector has 28 entries; the partition's
result-store path is entry 2 (right after the binary path and `refdb`), the
partition's sample count is entry 18, and the vector ends with the nine
remaining fixed configuration values, the last being `rmsigma` — the two
per-partition values are interleaved with the fixed arguments, not appended
after them. -/
theorem C3_argv_layout (d : String) (a : Arguments) (recdb : String) (samples : Int) :
    (execute_chunk_argv d a recdb samples).length = 28 ∧
    (execute_chunk_argv d a recdb samples)[2]? = some recdb ∧
    (execute_chunk_argv d a recdb samples)[18]? = some (toString samples) ∧
    (execute_chunk_argv d a recdb samples).getLast? = some a.rmsigma :=
  ⟨rfl, rfl, rfl, rfl⟩

/-- C4 counterexample: an unreadable first store aborts the whole run with
the uncaught `OperationalError` — the readable second store is never
aggregated, nothing is recorded as skipped, and no later event occurs. -/
theorem C4_counterexample :
    aggregateLoop [none, some [["row"]]] [] =
      .error "OperationalError: no such table" ∧
    mainTrace [] [none, some [["row"]]] [true] =
      [Ev.raised "OperationalError: no such table"] :=
  ⟨rfl, rfl⟩

/-- C4 (amended): when a partition's result store cannot be read, the
`SELECT` raises and no handler exists: the run aborts at that partition;
remaining partitions are not aggregated, nothing is committed and no store
is removed. -/
theorem C4_store_open_aborts (rest : List (Option (List Row))) (dest : List Row)
    (codes : List Int) (present : List Bool) :
    aggregateLoop (none :: rest) dest =
      .error "OperationalError: no such table" ∧
    mainTrace codes (none :: rest) present =
      [Ev.raised "OperationalError: no such table"] :=
  ⟨rfl, rfl⟩

/-- C5 counterexample: with a single child exiting with status 2, the run
completes and the orchestrator's exit code is 0, not non-zero. -/
theorem C5_counterexample :
    runExitCode [2] [some [["row"]]] [true] = 0 ∧ (2 : Int) ≠ 0 :=
  ⟨by decide, by decide⟩

/-- C5 (amended): the exit statuses of the child processes are discarded
(`execute_chunk` ignores `call`'s return value): the run's events do not
depend on them, no exception is raised on a non-zero child exit, aggregation
proceeds, and when every store is readable and every partition file is
present at cleanup the orchestrator exits 0 regardless of the child exit
codes. -/
theorem C5_exit_status_ignored (codes codes' : List Int)
    (stores : List (Option (List Row))) (present : List Bool) :
    mainTrace codes stores present = mainTrace codes' stores present ∧
    (none ∉ stores → false ∉ present → runExitCode codes stores present = 0) := by
  refine ⟨rfl, fun hs hp => ?_⟩
  unfold runExitCode
  rw [mainTrace_eq_of_ok codes stores present (aggTrace_snd_true stores 0 hs), if_neg]
  intro hany
  obtain ⟨e, he, hraised⟩ := List.any_eq_true.mp hany
  rcases List.mem_append.mp he with he1 | he2
  · rcases List.mem_append.mp he1 with ha | hb
    · rw [aggTrace_no_raised stores 0 hs e ha] at hraised
      exact absurd hraised (by decide)
    · have hc : e = Ev.commit := by simpa using hb
      subst hc
      exact absurd hraised (by decide)
  · rw [cleanTrace_no_raised present 0 hp e he2] at hraised
    exact absurd hraised (by decide)

/-- C5 witness: instance of `C5_exit_status_ignored` for one failed child. -/
theorem C5_exit_status_ignored_witness :
    mainTrace [5] [some [["row"]]] [true] = mainTrace [] [some [["row"]]] [true] ∧
    runExitCode [5] [some [["row"]]] [true] = 0 :=
  ⟨(C5_exit_status_ignored [5] [] [some [["row"]]] [true]).1,
   (C5_exit_status_ignored [5] [] [some [["row"]]] [true]).2 (by decide) (by decide)⟩

/-- C6: the pre-launch phase fails exactly when `workerCount ≤ 0`
(`ZeroDivisionError` from `round(samples / pnum)` when `pnum = 0`,
`ValueError` from `Pool(pnum)` when `pnum < 1`); both precede the launch of
any child — children are spawned only from the `ok` branch — and for
`workerCount ≥ 1` the partitioning step cannot fail, as it does no I/O. -/
theorem C6_config_error (recdb : String) (samples pnum : Int) :
    isErr (spawnPhase recdb samples pnum) = true ↔ pnum ≤ 0 := by
  unfold spawnPhase
  split_ifs with h1 h2 <;> simp [isErr] <;> omega

/-- C6 witness: instance of `C6_config_error` at zero workers. -/
theorem C6_config_error_witness :
    isErr (spawnPhase "lumberjack.db" 100 0) = true :=
  (C6_config_error "lumberjack.db" 100 0).mpr (by decide)

/-- C7 counterexample: a partition-store file already missing at cleanup time
raises `FileNotFoundError` — cleanup is not idempotent. -/
theorem C7_counterexample :
    mainTrace [] [some [["row"]]] [false] =
      [Ev.insertedFrom 0 [["row"]], Ev.commit, Ev.raised "FileNotFoundError"] :=
  rfl

/-- C7 (amended): a partition store is removed only in runs whose aggregation
loop completed for every partition, and all removals come after the commit
that follows aggregation; however, a partition-store file missing at cleanup
raises `FileNotFoundError` — missing files are an error, cleanup is not
idempotent. -/
theorem C7_cleanup_after_merge (codes : List Int)
    (stores : List (Option (List Row))) (present : List Bool) (i : Nat) :
    (Ev.removed i ∈ mainTrace codes stores present → (aggTrace 0 stores).2 = true) ∧
    ((aggTrace 0 stores).2 = true →
      mainTrace codes stores present =
        (aggTrace 0 stores).1 ++ [Ev.commit] ++ cleanTrace 0 present) ∧
    (Ev.raised "FileNotFoundError" ∈ cleanTrace 0 present ↔ false ∈ present) := by
  refine ⟨?_, mainTrace_eq_of_ok codes stores present, raised_mem_cleanTrace present 0⟩
  intro hmem
  cases hb : (aggTrace 0 stores).2 with
  | true => rfl
  | false =>
      rw [mainTrace_eq_of_err codes stores present hb] at hmem
      exact absurd hmem (removed_not_mem_aggTrace stores 0 i)

/-- C7 witness: instances of `C7_cleanup_after_merge` — a removal implies the
aggregation loop completed, and a missing file yields the raised error. -/
theorem C7_cleanup_after_merge_witness :
    (aggTrace 0 [some [["row"]]]).2 = true ∧
    Ev.raised "FileNotFoundError" ∈ cleanTrace 0 [false] :=
  ⟨(C7_cleanup_after_merge [] [some [["row"]]] [true] 0).1 (by decide),
   (C7_cleanup_after_merge [] [some [["row"]]] [false] 0).2.2.mpr (by decide)⟩

/-- C8: running the aggregation against a destination whose master table
already exists keeps the existing schema (the `CREATE TABLE IF NOT EXISTS`
is a no-op) and every pre-existing row survives as a prefix of the final
table. -/
theorem C8_idempotent_create (e : Exper) (s : String) (rs : List Row)
    (stores : List (Option (List Row))) (rows' : List Row)
    (h : aggregateLoop stores
      (createTableIfNotExists (SCHEMAS e) (some (s, rs))).2 = .ok rows') :
    (createTableIfNotExists (SCHEMAS e) (some (s, rs))).1 = s ∧
    rows'.take rs.length = rs := by
  refine ⟨rfl, ?_⟩
  have h2 : (createTableIfNotExists (SCHEMAS e) (some (s, rs))).2 = rs := rfl
  rw [h2] at h
  exact aggregateLoop_ok_take stores rs rows' h

/-- C8 witness: a pre-existing row survives the merge of one new row. -/
theorem C8_idempotent_create_witness :
    aggregateLoop [some [["b"]]]
      (createTableIfNotExists (SCHEMAS Exper.QUERY) (some ("S", [["a"]]))).2 =
        .ok [["a"], ["b"]] ∧
    ((createTableIfNotExists (SCHEMAS Exper.QUERY) (some ("S", [["a"]]))).1 = "S" ∧
      ([["a"], ["b"]] : List Row).take ([["a"]] : List Row).length = [["a"]]) :=
  ⟨rfl, C8_idempotent_create .QUERY "S" [["a"]] [some [["b"]]] [["a"], ["b"]] rfl⟩

/-- C9: for any `workerCount ≥ 1` the partition result-store paths are
pairwise distinct, and partition `i`'s path is exactly the destination base
path suffixed with a dash and the decimal rendering of `i`. -/
theorem C9_distinct_paths (recdb : String) (samples pnum : Int) (h : 1 ≤ pnum) :
    ((partition recdb samples pnum).map Prod.fst).Nodup ∧
    (partition recdb samples pnum).map Prod.fst =
      (List.range pnum.toNat).map (fun i => recdb ++ "-" ++ natStr i) := by
  have hmap : (partition recdb samples pnum).map Prod.fst =
      (List.range pnum.toNat).map (fun i => recdb ++ "-" ++ natStr i) := by
    unfold partition
    rw [List.map_map]
    rfl
  refine ⟨?_, hmap⟩
  rw [hmap]
  exact (List.nodup_range _).map (path_injective recdb)

/-- C9 witness: instance of `C9_distinct_paths` at three workers. -/
theorem C9_distinct_paths_witness :
    (1 : Int) ≤ 3 ∧
    (((partition "lumber" 7 3).map Prod.fst).Nodup ∧
      (partition "lumber" 7 3).map Prod.fst =
        (List.range (3 : Int).toNat).map (fun i => "lumber" ++ "-" ++ natStr i)) :=
  ⟨by decide, C9_distinct_paths "lumber" 7 3 (by decide)⟩

end PerformE
